import Mathlib

/-!
Shallow embedding of the chemometrics repository (chemometrics.py) over exact rational
arithmetic.  The dynamic behaviors of the Python/numpy layer that the specification and
the claims talk about are made explicit: resolution of the module name read by the loop
header of asym_ls, truth-value conversion of numpy arrays, shape-tuple unpacking and
indexing, and broadcasting of assignments.  All matrices are dense lists of rows of
rationals; fallible evaluation returns Except PyError.
-/

namespace Chemometrics

/-- Exceptions of the Python/numpy layer that chemometrics.py can surface. -/
inductive PyError where
  | nameError (msg : String)
  | valueError (msg : String)
  | indexError (msg : String)
deriving DecidableEq

/-- Dense 2-D array contents: a list of rows of exact rationals. -/
abbrev Mat := List (List ℚ)

/-- Shapes of numpy ndarray occurring in chemometrics.py: 1-D vectors, 2-D matrices,
and the 3-D arrays produced by np.array applied to a pair of equal-shaped 2-D arrays. -/
inductive NDArray where
  | one (v : List ℚ)
  | two (m : Mat)
  | three (t : List Mat)
deriving DecidableEq

def nrows (M : Mat) : Nat := M.length

def ncols (M : Mat) : Nat := (M.headD []).length

/-- Shape tuple a.shape of an ndarray. -/
def ndShape : NDArray → List Nat
  | .one v => [v.length]
  | .two M => [nrows M, ncols M]
  | .three t => [t.length, nrows (t.headD []), ncols (t.headD [])]

/-- Element count a.size of an ndarray: the product of the shape. -/
def ndSize (A : NDArray) : Nat := (ndShape A).foldr (· * ·) 1

def firstElem : NDArray → ℚ
  | .one v => v.headD 0
  | .two M => (M.headD []).headD 0
  | .three t => ((t.headD []).headD []).headD 0

/-- Truth-value conversion bool(a) of a numpy array, as evaluated by the branch
`if background:` at chemometrics.py line 147: a one-element array converts to the truth
of its element, an empty array to False, and any larger array raises ValueError. -/
def truthy (A : NDArray) : Except PyError Bool :=
  if ndSize A = 1 then .ok (decide (firstElem A ≠ 0))
  else if ndSize A = 0 then .ok false
  else .error (.valueError "The truth value of an array with more than one element is ambiguous. Use a.any() or a.all()")

/-- np.zeros([m, o]). -/
def zerosM (m o : Nat) : Mat := List.replicate m (List.replicate o 0)

/-- Module-level lookup of the name n_regressions read by the loop header at
chemometrics.py line 65.  The module never binds this name (the read at line 65 is its
sole occurrence in the repository), so the lookup finds nothing. -/
def n_regressions : Option Nat := none

def transposeM (M : Mat) : Mat :=
  (List.range (ncols M)).map (fun j => M.map (fun r => r.getD j 0))

/-- Matrix product np.dot for 2-D operands. -/
def dotM (A B : Mat) : Mat :=
  A.map (fun r => (transposeM B).map (fun c => (List.zipWith (fun x y => x * y) r c).sum))

def subM (A B : Mat) : Mat := List.zipWith (List.zipWith (fun x y => x - y)) A B

/-- Broadcasting product w * A of an (n, 1) weight column with an (n, k) array
(chemometrics.py lines 76-77). -/
def rowScale (w : List ℚ) (A : Mat) : Mat :=
  List.zipWith (fun wi r => r.map (fun x => wi * x)) w A

/-- Determinant by Laplace expansion along the first row; the fuel argument bounds the
recursion depth by the row count. -/
def detFuel : Nat → Mat → ℚ
  | 0, _ => 0
  | _ + 1, [] => 1
  | fuel + 1, r :: rs =>
    (List.range r.length).foldr
      (fun j acc =>
        (-1) ^ j * r.getD j 0 * detFuel fuel (rs.map (fun row => row.eraseIdx j)) + acc)
      0

def det (M : Mat) : ℚ := detFuel (M.length + 1) M

/-- Replace column i of A by the entries of c. -/
def replCol (A : Mat) (i : Nat) (c : List ℚ) : Mat :=
  List.zipWith (fun row cj => row.set i cj) A c

/-- Solve the square system A x = c by the Cramer rule; zero vector on singular A. -/
def solveCol (A : Mat) (c : List ℚ) : List ℚ :=
  let d := det A
  if d = 0 then List.replicate A.length 0
  else (List.range A.length).map (fun i => det (replCol A i c) / d)

/-- np.linalg.lstsq, the external dense least-squares solver (spec sections 4.1 and 6
treat it as an external collaborator).  Modelled by its contract for full column rank
via the normal equations, solved exactly by the Cramer rule; a singular normal matrix
yields the zero solution. -/
def lstsq (X y : Mat) : Mat :=
  let G := dotM (transposeM X) X
  let R := dotM (transposeM X) y
  transposeM ((transposeM R).map (fun c => solveCol G c))

/-- Broadcast of a 2-D value of shape (rB, cB) into a column slice of length m (the
assignment beta[:, i] = value at chemometrics.py line 79): it succeeds exactly when the
leading axis has size 1 and the trailing axis has size m or 1. -/
def bcastToCol (B : Mat) (m : Nat) : Option (List ℚ) :=
  if nrows B = 1 then
    let r := B.headD []
    if r.length = m then some r
    else if r.length = 1 then some (List.replicate m (r.headD 0))
    else none
  else none

/-- chemometrics.py lines 82-83: the two boolean-mask assignments
w_new[residuals > 0] = asym_factor and then w_new[residuals <= 0] = 1 - asym_factor,
applied to the (n, 1) weight column against the (n, 1) residual column. -/
def recompute_weights (w_new residuals : List ℚ) (asym_factor : ℚ) : List ℚ :=
  let after_gt := List.zipWith (fun w r => if 0 < r then asym_factor else w) w_new residuals
  List.zipWith (fun w r => if r ≤ 0 then 1 - asym_factor else w) after_gt residuals

/-- chemometrics.py lines 72-85, the while loop for one regression index i: while the
weights changed and fewer than max_cycles = 10 cycles ran, copy w_new into w, solve the
weighted problem, assign the (m, o) lstsq result into the column beta[:, i] (a numpy
broadcast; out-of-range i raises IndexError), recompute the residuals of the full y and
the weights, and count the cycle.  The fuel argument only realizes the recursion; the
cycle counter bounds the iterations at 10 as in the source. -/
def asym_cycle (X y : Mat) (asym_factor : ℚ) (i : Nat) :
    Nat → Mat → List ℚ → List ℚ → Nat → Except PyError Mat
  | 0, beta, _, _, _ => .ok beta
  | fuel + 1, beta, w, w_new, cycle =>
    if w = w_new ∨ 10 ≤ cycle then .ok beta
    else
      let wc := w_new
      let X_scaled := rowScale wc X
      let y_scaled := rowScale wc y
      let B := lstsq X_scaled y_scaled
      if i < ncols beta then
        match bcastToCol B (nrows beta) with
        | none => .error (.valueError "could not broadcast input array")
        | some col =>
          let beta2 := replCol beta i col
          let residuals := subM y (dotM X beta2)
          if ncols residuals = 1 then
            let w_new2 :=
              recompute_weights w_new (residuals.map (fun r => r.headD 0)) asym_factor
            asym_cycle X y asym_factor i fuel beta2 wc w_new2 (cycle + 1)
          else .error (.indexError "boolean index did not match indexed array")
      else .error (.indexError "index out of bounds")

/-- Tuple unpacking n, m = shape (chemometrics.py line 61). -/
def unpack2 (s : List Nat) : Except PyError (Nat × Nat) :=
  match s with
  | [a, b] => .ok (a, b)
  | [] => .error (.valueError "not enough values to unpack (expected 2, got 0)")
  | [_] => .error (.valueError "not enough values to unpack (expected 2, got 1)")
  | _ => .error (.valueError "too many values to unpack (expected 2)")

/-- Tuple indexing shape[1] (chemometrics.py line 62). -/
def shapeAt1 (s : List Nat) : Except PyError Nat :=
  match s.get? 1 with
  | some k => .ok k
  | none => .error (.indexError "tuple index out of range")

def toMat2 : NDArray → Mat
  | .two M => M
  | _ => []

/-- chemometrics.py lines 12-86: asym_ls(X, y, asym_factor=0.1).  Lines 61-63 read the
shapes and allocate beta; line 65 then reads the module name n_regressions to bound the
outer loop over the regressions; lines 66-85 are the per-regression iterative
reweighting, embedded in asym_cycle (w starts as zeros, w_new as ones, cycle at 0). -/
def asym_ls (X y : NDArray) (asym_factor : ℚ) : Except PyError NDArray := do
  let (n, m) ← unpack2 (ndShape X)
  let o ← shapeAt1 (ndShape y)
  let beta := zerosM m o
  match n_regressions with
  | none => .error (.nameError "name n_regressions is not defined")
  | some nregs =>
    ((List.range nregs).foldlM
      (fun b i =>
        asym_cycle (toMat2 X) (toMat2 y) asym_factor i 11 b
          (List.replicate n 0) (List.replicate n 1) 0)
      beta).map NDArray.two

/-- np.linspace(-1, 1, num = m) (chemometrics.py line 140), exactly over the rationals. -/
def linspace (m : Nat) : List ℚ :=
  if m = 0 then []
  else if m = 1 then [-1]
  else (List.range m).map (fun i => -1 + 2 * (i : ℚ) / ((m : ℚ) - 1))

/-- chemometrics.py lines 139-142: the baseline matrix whose column i holds
multiplier ** i for i in range(p_order + 1); the rows are the n_variables positions. -/
def baselineMat (n_variables p_order : Nat) : Mat :=
  (linspace n_variables).map (fun x => (List.range (p_order + 1)).map (fun i => x ^ i))

/-- np.mean(D, axis=0): the 1-D mean spectrum across samples (chemometrics.py
line 154). -/
def meanAxis0 (D : Mat) : List ℚ :=
  (List.range (ncols D)).map (fun j => (D.map (fun r => r.getD j 0)).sum / (nrows D : ℚ))

/-- np.array([A, B]) applied to a pair of arrays (chemometrics.py lines 151 and 157):
with equal shapes it stacks them along a new leading axis, producing a higher-rank
array rather than a horizontal concatenation; with unequal shapes numpy rejects the
ragged nesting. -/
def npStack2 (A B : NDArray) : Except PyError NDArray :=
  if ndShape A = ndShape B then
    match A, B with
    | .two M, .two N => .ok (.three [M, N])
    | .one v, .one w => .ok (.two [v, w])
    | _, _ => .error (.valueError "could not stack operands")
  else .error (.valueError "setting an array element with a sequence")

/-- np.dot restricted to the operand ranks emsc builds. -/
def ndDot (A B : NDArray) : NDArray :=
  match A, B with
  | .two M, .two N => .two (dotM M N)
  | .two M, .one v => .one (M.map (fun r => (List.zipWith (fun x y => x * y) r v).sum))
  | _, _ => A

/-- Elementwise subtraction of equal-rank operands. -/
def ndSub (A B : NDArray) : NDArray :=
  match A, B with
  | .one v, .one w => .one (List.zipWith (fun x y => x - y) v w)
  | .two M, .two N => .two (subM M N)
  | _, _ => A

/-- Slice a[:, :-1] on a 2-D array (chemometrics.py line 161). -/
def dropLastColA : NDArray → NDArray
  | .two M => .two (M.map List.dropLast)
  | A => A

/-- Slice a[:-1, :] on a 2-D array (chemometrics.py line 161). -/
def dropLastRowA : NDArray → NDArray
  | .two M => .two M.dropLast
  | A => A

/-- Row a[-1, :] of a 2-D array (chemometrics.py line 163). -/
def lastRowA : NDArray → List ℚ
  | .two M => M.getLast?.getD []
  | .one v => v
  | _ => []

/-- np.diag of a vector (chemometrics.py line 163). -/
def diagM (v : List ℚ) : Mat :=
  (List.range v.length).map
    (fun i => (List.range v.length).map (fun j => if i = j then v.getD i 0 else 0))

/-- Elementwise product of 2-D operands. -/
def hadamard (A B : Mat) : Mat := List.zipWith (List.zipWith (fun x y => x * y)) A B

/-- chemometrics.py lines 89-164: emsc(D, p_order=2, background=None, normalize=False,
algorithm=als).  The algorithm parameter is accepted and never read, as in the source.
Lines 137-144 build the polynomial baseline, line 147 evaluates `if background:`,
lines 148-151 orthogonalize a truthy background against the baseline with asym_ls and
stack it onto the regressor, lines 154-157 do the same with the 1-D mean spectrum,
lines 159-164 fit the full regressor against D, reconstruct everything but the last
regressor column, and optionally normalize by the last coefficient row. -/
def emsc (D : Mat) (p_order : Nat) (background : Option NDArray) (normalize : Bool)
    (algorithm : String) : Except PyError (NDArray × NDArray) := do
  let n_series := nrows D
  let n_variables := ncols D
  let baseline := baselineMat n_variables p_order
  let regressor : NDArray := .two baseline
  let cond ← match background with
    | none => Except.ok false
    | some A => truthy A
  let regressor ← if cond then do
      let bg := background.getD (.one [])
      let beta_background ← asym_ls (.two baseline) bg (1 / 10)
      let background_pretreated := ndSub bg (ndDot (.two baseline) beta_background)
      npStack2 regressor background_pretreated
    else pure regressor
  let D_bar : NDArray := .one (meanAxis0 D)
  let beta_D_bar ← asym_ls regressor D_bar (1 / 10)
  let D_bar_pretreated := ndSub D_bar (ndDot regressor beta_D_bar)
  let regressor2 ← npStack2 regressor D_bar_pretreated
  let coefficients ← asym_ls regressor2 (.two D) (1 / 10)
  let D_pretreated := ndSub (.two D) (ndDot (dropLastColA regressor2) (dropLastRowA coefficients))
  let D_pretreated :=
    if normalize then
      .two (hadamard (toMat2 D_pretreated)
        (diagM ((lastRowA coefficients).map (fun c => 1 / c))))
    else D_pretreated
  let _ := algorithm
  let _ := n_series
  pure (D_pretreated, coefficients)

/-- Data matrix of the canonical background-subtraction scenario: 10 samples, each row
equal to arange(50). -/
def canonicalD : Mat := List.replicate 10 ((List.range 50).map (fun j => (j : ℚ)))

/-- Background of the canonical scenario: 0.5 times row 0 of canonicalD, reshaped to a
(50, 1) column. -/
def canonicalBackground : NDArray := .two ((List.range 50).map (fun j => [(j : ℚ) / 2]))

/-- Constant design of the location test: a (10, 1) all-ones column. -/
def locX : NDArray := .two (List.replicate 10 [1])

/-- Monotone response of the location test: arange(10) as a (10, 1) column. -/
def locY : NDArray := .two ((List.range 10).map (fun k => [(k : ℚ)]))

/-- Claim C1: for every coefficient matrix X of shape (n, m) and response matrix y of
shape (n, o), asym_ls is claimed to run to completion with the loop bound o and to fail
only on a row-count mismatch, never with a name-resolution error.  The code does the
opposite: every call raises NameError for the unbound loop-bound name n_regressions at
line 65, before any regression runs. -/
theorem asym_ls_raises_undefined_name (X y : NDArray) (asym_factor : ℚ) (n m o : Nat)
    (hX : ndShape X = [n, m]) (hy : ndShape y = [n, o]) :
    asym_ls X y asym_factor = .error (.nameError "name n_regressions is not defined") := by
  cases X with
  | one v => simp [ndShape] at hX
  | three t => simp [ndShape] at hX
  | two M =>
    cases y with
    | one v => simp [ndShape] at hy
    | three t => simp [ndShape] at hy
    | two N => rfl

theorem asym_ls_raises_undefined_name_witness :
    ndShape (NDArray.two [[(1 : ℚ), 0], [0, 1], [1, 1]]) = [3, 2] ∧
    ndShape (NDArray.two [[(1 : ℚ)], [2], [3]]) = [3, 1] ∧
    asym_ls (NDArray.two [[(1 : ℚ), 0], [0, 1], [1, 1]]) (NDArray.two [[(1 : ℚ)], [2], [3]])
        (1 / 10) = .error (.nameError "name n_regressions is not defined") :=
  ⟨rfl, rfl,
    asym_ls_raises_undefined_name (NDArray.two [[(1 : ℚ), 0], [0, 1], [1, 1]])
      (NDArray.two [[(1 : ℚ)], [2], [3]]) (1 / 10) 3 2 1 rfl rfl⟩

/-- Claim C4: asym_ls with asym_factor = 1/2 is claimed to return the ordinary
least-squares coefficients.  The code returns nothing: already at a constant 3 x 1
design against a 3 x 1 response it raises NameError for the unbound name n_regressions
instead of producing the least-squares solution. -/
theorem asym_ls_symmetric_factor_raises :
    asym_ls (NDArray.two [[(1 : ℚ)], [1], [1]]) (NDArray.two [[(0 : ℚ)], [1], [2]]) (1 / 2) =
      .error (.nameError "name n_regressions is not defined") := rfl

/-- Claim C5: asym_ls is claimed to always return a matrix of shape (m, o).  No matrix
of any shape is ever returned: at a 2 x 3 design against a 2 x 2 response the call
raises NameError for the unbound name n_regressions. -/
theorem asym_ls_shape_never_returned :
    asym_ls (NDArray.two [[(1 : ℚ), 2, 0], [0, 1, 1]]) (NDArray.two [[(1 : ℚ), 1], [2, 0]])
        (1 / 10) = .error (.nameError "name n_regressions is not defined") := rfl

/-- Claim C6: asym_ls is claimed to be a terminating, total computation whose weight
loop runs between 1 and 10 iterations for every asym_factor in (0, 1).  It is not
total: for every asym_factor in (0, 1) the call raises NameError for the unbound name
n_regressions before the weight loop is ever entered, so zero iterations execute. -/
theorem asym_ls_not_terminating_normally (a : ℚ) (h0 : 0 < a) (h1 : a < 1) :
    asym_ls (NDArray.two [[(1 : ℚ)], [1]]) (NDArray.two [[(1 : ℚ)], [5]]) a =
      .error (.nameError "name n_regressions is not defined") := rfl

theorem asym_ls_not_terminating_normally_witness :
    ((0 : ℚ) < 1 / 3 ∧ (1 : ℚ) / 3 < 1) ∧
    asym_ls (NDArray.two [[(1 : ℚ)], [1]]) (NDArray.two [[(1 : ℚ)], [5]]) (1 / 3) =
      .error (.nameError "name n_regressions is not defined") :=
  ⟨⟨by norm_num, by norm_num⟩,
    asym_ls_not_terminating_normally (1 / 3) (by norm_num) (by norm_num)⟩

/-- Claim C8: on the constant all-ones (10, 1) design locX against the increasing
response locY, the fitted coefficient is claimed to strictly increase through the
asym_factor values 0.001, 0.0011, 0.5, 0.9, 0.99.  No coefficient exists to compare:
each of the five calls raises NameError for the unbound name n_regressions. -/
theorem asym_ls_location_factors_raise :
    asym_ls locX locY (1 / 1000) = .error (.nameError "name n_regressions is not defined") ∧
    asym_ls locX locY (11 / 10000) = .error (.nameError "name n_regressions is not defined") ∧
    asym_ls locX locY (1 / 2) = .error (.nameError "name n_regressions is not defined") ∧
    asym_ls locX locY (9 / 10) = .error (.nameError "name n_regressions is not defined") ∧
    asym_ls locX locY (99 / 100) = .error (.nameError "name n_regressions is not defined") :=
  ⟨rfl, rfl, rfl, rfl, rfl⟩

/-- Claim C2: on the canonical background-subtraction scenario (D 10 x 50 with every
row arange(50), background 0.5 times row 0 as a (50, 1) column, p_order 0), emsc is
claimed to return an all-zero pretreated matrix.  Instead it raises ValueError when
`if background:` evaluates the truth of the 50-element background array, before any
regression or subtraction happens. -/
theorem emsc_canonical_scenario_raises :
    emsc canonicalD 0 (some canonicalBackground) false "als" =
      .error (.valueError "The truth value of an array with more than one element is ambiguous. Use a.any() or a.all()") := rfl

theorem except_error_bind {ε α β : Type} (e : ε) (k : α → Except ε β) :
    (Except.error e >>= k : Except ε β) = Except.error e := rfl

/-- Claim C3: for every background array with more than one element, evaluating the
branch condition `if background:` at chemometrics.py line 147 raises ValueError, so
emsc never reaches the background-orthogonalization step and returns no result, for
every data matrix D, polynomial order, and normalization flag. -/
theorem emsc_array_background_ambiguous (D : Mat) (p_order : Nat) (normalize : Bool)
    (bg : NDArray) (h : 1 < ndSize bg) :
    emsc D p_order (some bg) normalize "als" =
      .error (.valueError "The truth value of an array with more than one element is ambiguous. Use a.any() or a.all()") := by
  have h1 : ndSize bg ≠ 1 := by omega
  have h0 : ndSize bg ≠ 0 := by omega
  have ht : truthy bg =
      .error (.valueError "The truth value of an array with more than one element is ambiguous. Use a.any() or a.all()") := by
    unfold truthy
    rw [if_neg h1, if_neg h0]
  simp [emsc, ht, except_error_bind]

theorem emsc_array_background_ambiguous_witness :
    1 < ndSize (NDArray.two [[(1 : ℚ)], [2]]) ∧
    emsc [[(1 : ℚ), 2], [3, 4]] 0 (some (NDArray.two [[(1 : ℚ)], [2]])) false "als" =
      .error (.valueError "The truth value of an array with more than one element is ambiguous. Use a.any() or a.all()") :=
  ⟨by decide,
    emsc_array_background_ambiguous [[(1 : ℚ), 2], [3, 4]] 0 false
      (NDArray.two [[(1 : ℚ)], [2]]) (by decide)⟩

/-- Claim C9: emsc is claimed to return, for every D of shape (n, m), a pretreated
matrix of shape (n, m) and a coefficient matrix with n rows, with or without a
background.  It returns nothing on either path: without a background it raises
IndexError inside asym_ls (line 62 reads y.shape[1] of the 1-D mean spectrum), and
with an array background it raises ValueError on the truthiness of the array. -/
theorem emsc_shapes_never_returned :
    emsc [[(1 : ℚ), 2], [3, 4]] 2 none false "als" =
      .error (.indexError "tuple index out of range") ∧
    emsc [[(1 : ℚ), 2], [3, 4]] 2 (some (NDArray.two [[(1 : ℚ), 0], [0, 1]])) false "als" =
      .error (.valueError "The truth value of an array with more than one element is ambiguous. Use a.any() or a.all()") :=
  ⟨rfl, rfl⟩

/-- Claim C10: the pretreated data returned by emsc is claimed to be D minus the
contributions of every regressor column except the last.  The reconstruction at
line 161 never executes: emsc raises IndexError inside its first asym_ls call (line 62
reads y.shape[1] of the 1-D mean spectrum) and returns nothing. -/
theorem emsc_reconstruction_never_runs :
    emsc [[(1 : ℚ), 2, 3], [4, 5, 6]] 1 none true "als" =
      .error (.indexError "tuple index out of range") := rfl

theorem recompute_weights_cons (w r : ℚ) (ws rs : List ℚ) (a : ℚ) :
    recompute_weights (w :: ws) (r :: rs) a =
      (if r ≤ 0 then 1 - a else if 0 < r then a else w) :: recompute_weights ws rs a := rfl

/-- Claim C7: the weight recomputation of the asym_ls loop (chemometrics.py lines
81-83, embedded in recompute_weights, which asym_cycle applies every iteration to the
length-n weight column) preserves the length of the weight vector and sets every entry
to asym_factor where the residual is strictly positive and to 1 - asym_factor where it
is non-positive; hence every recomputed weight lies in the pair asym_factor,
1 - asym_factor. -/
theorem recompute_weights_spec (w_new residuals : List ℚ) (asym_factor : ℚ)
    (h : w_new.length = residuals.length) :
    (recompute_weights w_new residuals asym_factor).length = w_new.length ∧
    (∀ i, i < w_new.length →
      (recompute_weights w_new residuals asym_factor).getD i 0 =
        if 0 < residuals.getD i 0 then asym_factor else 1 - asym_factor) ∧
    (∀ x ∈ recompute_weights w_new residuals asym_factor,
      x = asym_factor ∨ x = 1 - asym_factor) := by
  induction w_new generalizing residuals with
  | nil =>
    refine ⟨by simp [recompute_weights], ?_, ?_⟩
    · intro i hi
      simp at hi
    · intro x hx
      simp [recompute_weights] at hx
  | cons w ws ih =>
    cases residuals with
    | nil => simp at h
    | cons r rs =>
      have h' : ws.length = rs.length := by simpa using h
      obtain ⟨ih1, ih2, ih3⟩ := ih rs h'
      rw [recompute_weights_cons]
      refine ⟨by simp [ih1], ?_, ?_⟩
      · intro i hi
        cases i with
        | zero =>
          simp only [List.getD_cons_zero]
          rcases le_or_lt r 0 with hr | hr
          · rw [if_pos hr, if_neg (not_lt.mpr hr)]
          · rw [if_neg (not_le.mpr hr), if_pos hr, if_pos hr]
        | succ i =>
          simp only [List.getD_cons_succ]
          exact ih2 i (by simpa using hi)
      · intro x hx
        rcases List.mem_cons.mp hx with hx | hx
        · rcases le_or_lt r 0 with hr | hr
          · right
            rw [hx, if_pos hr]
          · left
            rw [hx, if_neg (not_le.mpr hr), if_pos hr]
        · exact ih3 x hx

theorem recompute_weights_spec_witness :
    ([(1 : ℚ), 1].length = [(3 : ℚ), -2].length) ∧
    ((recompute_weights [(1 : ℚ), 1] [(3 : ℚ), -2] (1 / 10)).length = [(1 : ℚ), 1].length ∧
      (∀ i, i < [(1 : ℚ), 1].length →
        (recompute_weights [(1 : ℚ), 1] [(3 : ℚ), -2] (1 / 10)).getD i 0 =
          if 0 < [(3 : ℚ), -2].getD i 0 then (1 : ℚ) / 10 else 1 - 1 / 10) ∧
      (∀ x ∈ recompute_weights [(1 : ℚ), 1] [(3 : ℚ), -2] (1 / 10),
        x = (1 : ℚ) / 10 ∨ x = 1 - 1 / 10)) :=
  ⟨rfl, recompute_weights_spec [(1 : ℚ), 1] [(3 : ℚ), -2] (1 / 10) rfl⟩

end Chemometrics
